import Mathlib

/-!
# Verification of the smart-pac rule-resolution and PAC-generation core

Shallow embedding of the proxy-auto-configuration (PAC) core of the
repository: the host/pattern matcher (`hostMatch`), the rule resolver
(`resolveHostsByRule`), the directive builder (`findProxyForURL`) and the
two PAC serialization strategies (the embedded-logic script of
`generatePac` in `src/utils`, and the pre-expanded static script of the
legacy standalone worker's `/pac` route), together with the `host_ids`
decoder (`parseHostIds` of `src/api`).

JavaScript strings are modelled as lists of characters (`JStr`); JS
numbers appearing in configuration data are modelled as `Int` (ids,
ports) or `ℚ` (values coming out of `JSON.parse`, where non-integral
numbers are possible); JS `NaN` is modelled as `Option.none`.
-/

namespace SmartPac

/-- JavaScript strings, modelled as lists of characters. -/
abbrev JStr := List Char

/-- Embed a Lean string literal into the JS string model. -/
def S (s : String) : JStr := s.data

/-- Modelled from the spec: the repository file `src/types.ts` is not under
`src/`; §3 of the spec defines `Host` as
`{ id: integer, name: optional string, host: string, port: integer, type }`,
where `type` may be absent on the record (the resolver applies the textual
default `"PROXY"` at read time via `item.type || 'PROXY'`). -/
structure Host where
  id : Int
  name : Option JStr
  host : JStr
  port : Int
  type : Option JStr
deriving Repr, DecidableEq

/-- Modelled from the spec: a `Rule` is the pair
`(pattern, ordered sequence of host ids)` (in the code a two-element
tuple `[string, number[]]`). -/
abbrev Rule := JStr × List Int

/-- Modelled from the spec: `HostConfig` is the fully materialized snapshot
`{ hosts: sequence of Host, rules: sequence of Rule }`. -/
structure HostConfig where
  hosts : List Host
  rules : List Rule
deriving Repr, DecidableEq

/-- The function `hostMatch` from `src/utils`: if the rule pattern starts
with the two-character string `*.`, test whether `host` ends with
`rule.slice(2)`; otherwise test exact equality (`host === rule`). -/
def hostMatch (host rule : JStr) : Bool :=
  if (S "*.").isPrefixOf rule then
    (rule.drop 2).isSuffixOf host
  else
    host == rule

/-- The id-to-host lookup pass of `resolveHostsByRule` in `src/utils`:
`hostIds.map((hostId) => hosts.find((item) => item.id === hostId))` followed
by `.filter(Boolean)`, i.e. dropping the `undefined` results (written here
as the equivalent `filterMap id` over the list of optional results). -/
def resolveIds (hosts : List Host) (hostIds : List Int) : List Host :=
  (hostIds.map (fun hostId => hosts.find? (fun item => item.id == hostId))).filterMap id

/-- The function `resolveHostsByRule` from `src/utils`: find the first rule
whose pattern matches `host`; with no match return the empty list, otherwise
resolve the matched rule's host ids against `config.hosts`. -/
def resolveHostsByRule (hostConfig : HostConfig) (host : JStr) : List Host :=
  match hostConfig.rules.find? (fun item => hostMatch host item.1) with
  | none => []
  | some hostRule => resolveIds hostConfig.hosts hostRule.2

/-- The JS truthiness default `item.type || 'PROXY'`: an absent
(`undefined`) or empty `type` string is falsy and replaced by `"PROXY"`. -/
def typeOrPROXY : Option JStr → JStr
  | none => S "PROXY"
  | some t => if t = [] then S "PROXY" else t

/-- One proxy directive of `findProxyForURL` in `src/utils`: the template
string built from `item.type || 'PROXY'`, `item.host` and `item.port`. -/
def proxyDirective (item : Host) : JStr :=
  typeOrPROXY item.type ++ S " " ++ item.host ++ S ":" ++ S (toString item.port)

/-- JavaScript `Array.prototype.join(sep)`: concatenate the elements with
`sep` between consecutive elements. -/
def jsJoin (sep : JStr) : List JStr → JStr
  | [] => []
  | x :: t => x ++ if t = [] then [] else sep ++ jsJoin sep t

/-- The function `findProxyForURL` from `src/utils`: map the resolved hosts
to directive strings, push the fallback `'DIRECT'`, and join with `';'`.
The `url` argument is accepted but unused (matching is host-only). -/
def findProxyForURL (hostConfig : HostConfig) (_url host : JStr) : JStr :=
  jsJoin (S ";") ((resolveHostsByRule hostConfig host).map proxyDirective ++ [S "DIRECT"])

/-- Remove one host id from the hostIds of every rule of a configuration
(used to state that a dangling id never influences resolution). -/
def removeId (i : Int) (cfg : HostConfig) : HostConfig :=
  ⟨cfg.hosts, cfg.rules.map (fun r => (r.1, r.2.filter (fun j => j != i)))⟩

/-- The `type` union of the legacy standalone worker's `Host` interface:
`'SOCKS' | 'HTTP' | 'HTTPS'`. -/
inductive PacHostType
  | SOCKS
  | HTTP
  | HTTPS
deriving Repr, DecidableEq

/-- A host row of the legacy standalone worker (its `Host` interface):
`{ id, user_id, name, type, host, port }`. -/
structure PacHost where
  id : Int
  user_id : Int
  name : JStr
  type : PacHostType
  host : JStr
  port : Int
deriving Repr, DecidableEq

/-- One row of the legacy `/pac` route's rules query
(`SELECT pattern, host_ids ... ORDER BY pattern`), with the `host_ids`
column text already passed through `JSON.parse`. -/
structure PacRuleRow where
  pattern : JStr
  host_ids : List Int
deriving Repr, DecidableEq

/-- One proxy-table entry emitted by the legacy `/pac` route's
`hosts.forEach` loop: `SOCKS` hosts are emitted with the `SOCKS5` keyword,
`HTTP` hosts with `PROXY`, and `HTTPS` hosts with `HTTPS`. -/
def pacHostLine (host : PacHost) : JStr :=
  match host.type with
  | .SOCKS =>
      S "        " ++ S (toString host.id) ++ S ": \"SOCKS5 " ++ host.host ++ S ":" ++
        S (toString host.port) ++ S "\",\n"
  | .HTTP =>
      S "        " ++ S (toString host.id) ++ S ": \"PROXY " ++ host.host ++ S ":" ++
        S (toString host.port) ++ S "\",\n"
  | .HTTPS =>
      S "        " ++ S (toString host.id) ++ S ": \"HTTPS " ++ host.host ++ S ":" ++
        S (toString host.port) ++ S "\",\n"

/-- JavaScript `s.replace(/c/g, r)` for a single-character pattern `c`:
replace every occurrence of the character `c` in `s` by the string `r`. -/
def jsReplaceAllChar (c : Char) (r : JStr) : JStr → JStr
  | [] => []
  | a :: rest => (if a = c then r else [a]) ++ jsReplaceAllChar c r rest

/-- The pattern-to-regex translation of the legacy `/pac` route:
`rule.pattern.replace(/\*/g, '.*').replace(/\./g, '\\.')` — the wildcard
`*` is expanded to `.*` first, and every dot of the result (including the
dot just introduced by that expansion) is then escaped to `\.`. -/
def pacPatternRegex (p : JStr) : JStr :=
  jsReplaceAllChar '.' (S "\\.") (jsReplaceAllChar '*' (S ".*") p)

/-- The translation the spec claims instead: escape literal dots to `\.`
first, then expand `*` to `.*` (stated here only to be compared against
`pacPatternRegex`, which is what the code does). -/
def specClaimedPatternRegex (p : JStr) : JStr :=
  jsReplaceAllChar '*' (S ".*") (jsReplaceAllChar '.' (S "\\.") p)

/-- Standalone single-pass star expansion (`*` ↦ `.*`), used to state the
amended translation-order property. -/
def starExpandAll : JStr → JStr
  | [] => []
  | a :: rest => (if a = '*' then S ".*" else [a]) ++ starExpandAll rest

/-- Standalone single-pass dot escaping (`.` ↦ `\.`), used to state the
amended translation-order property. -/
def dotEscapeAll : JStr → JStr
  | [] => []
  | a :: rest => (if a = '.' then S "\\." else [a]) ++ dotEscapeAll rest

/-- The conditional emitted by the legacy `/pac` route's `rules.forEach`
loop: with a non-empty hostIds list, one `if (/regex/.test(host)) return
PROXY[firstId];` line built from `hostIds[0]`; with an empty list, nothing. -/
def pacRuleLine (r : PacRuleRow) : JStr :=
  if 0 < r.host_ids.length then
    S "    if (/" ++ pacPatternRegex r.pattern ++ S "/.test(host)) return PROXY[" ++
      S (toString (r.host_ids.headD 0)) ++ S "];\n"
  else
    []

/-- The leading template text of the legacy `/pac` route's script, up to and
including the opening of the `PROXY` lookup table. -/
def pacHeader : JStr :=
  S "\nfunction FindProxyForURL(url, host) \x7b\n    // 默认直连\n    var DEFAULT = \"DIRECT\";\n    \n    // 定义代理服务器\n    var PROXY = \x7b\n"

/-- The template text between the `PROXY` table and the rule conditionals. -/
def pacMiddle : JStr :=
  S "    \x7d;\n    \n    // 匹配规则\n"

/-- The trailing template text of the legacy `/pac` route's script: the
default `return DEFAULT;` statement and the closing brace. -/
def pacFooter : JStr :=
  S "\n    // 默认返回直连\n    return DEFAULT;\n\x7d"

/-- The full pre-expanded static PAC script assembled by the legacy `/pac`
route: header, one table entry per host, middle, one conditional per rule,
footer. -/
def pacStaticScript (hosts : List PacHost) (rules : List PacRuleRow) : JStr :=
  pacHeader ++ (hosts.map pacHostLine).flatten ++ pacMiddle ++
    (rules.map pacRuleLine).flatten ++ pacFooter

/-- JSON values, the abstract syntax produced by `JSON.parse` and consumed
by `JSON.stringify`. -/
inductive Json
  | jnull
  | jbool (b : Bool)
  | jnum (q : ℚ)
  | jstr (s : JStr)
  | jarr (elems : List Json)
  | jobj (fields : List (JStr × Json))

/-- `JSON.stringify` of a `Host` record, at the level of the JSON value it
denotes: fields with `undefined` values (`name`, `type` when absent) are
omitted from the serialized object. -/
def encodeHost (h : Host) : Json :=
  .jobj ([(S "id", .jnum (h.id : ℚ))] ++
    (match h.name with | none => [] | some n => [(S "name", .jstr n)]) ++
    [(S "host", .jstr h.host), (S "port", .jnum (h.port : ℚ))] ++
    (match h.type with | none => [] | some t => [(S "type", .jstr t)]))

/-- `JSON.stringify` of a `Rule` tuple: a two-element JSON array holding the
pattern string and the array of host-id numbers. -/
def encodeRule (r : Rule) : Json :=
  .jarr [.jstr r.1, .jarr (r.2.map (fun (n : Int) => .jnum (n : ℚ)))]

/-- `JSON.stringify` of the whole `HostConfig` snapshot, as embedded by
`generatePac` into the `const hostConfig=...` line of the script. -/
def encodeHostConfig (cfg : HostConfig) : Json :=
  .jobj [(S "hosts", .jarr (cfg.hosts.map encodeHost)),
         (S "rules", .jarr (cfg.rules.map encodeRule))]

/-- Property access by name on a parsed JSON object (first binding wins). -/
def jLookup (fields : List (JStr × Json)) (key : JStr) : Option Json :=
  (fields.find? (fun f => f.1 == key)).map (fun f => f.2)

/-- Read a JSON value as an integer (a number with denominator 1). -/
def asInt : Json → Option Int
  | .jnum q => if q.den = 1 then some q.num else none
  | _ => none

/-- Read a JSON value as a string. -/
def asStr : Json → Option JStr
  | .jstr s => some s
  | _ => none

/-- Modelled from the spec: the PAC-executing engine reads the parsed
`hostConfig` object field by field exactly as the embedded resolver source
accesses it; this decoder makes that implicit typing explicit. -/
def decodeHost (j : Json) : Option Host :=
  match j with
  | .jobj fields =>
      (jLookup fields (S "id") >>= asInt).bind fun id =>
      (jLookup fields (S "host") >>= asStr).bind fun hostv =>
      (jLookup fields (S "port") >>= asInt).bind fun port =>
      some { id := id, name := jLookup fields (S "name") >>= asStr,
             host := hostv, port := port,
             type := jLookup fields (S "type") >>= asStr }
  | _ => none

/-- Decode each element of a JSON array in order, failing if any fails. -/
def decodeList {α : Type} (f : Json → Option α) : List Json → Option (List α)
  | [] => some []
  | a :: t => (f a).bind fun b => (decodeList f t).map fun bs => b :: bs

/-- Modelled from the spec: the engine's reading of one serialized rule
tuple back as a `(pattern, hostIds)` pair. -/
def decodeRule (j : Json) : Option Rule :=
  match j with
  | .jarr [p, .jarr ids] =>
      (asStr p).bind fun ps =>
      (decodeList asInt ids).bind fun idl =>
      some (ps, idl)
  | _ => none

/-- Modelled from the spec: the engine's reading of the whole embedded
`hostConfig` object. -/
def decodeHostConfig (j : Json) : Option HostConfig :=
  match j with
  | .jobj fields =>
      (jLookup fields (S "hosts")).bind fun hj =>
      (jLookup fields (S "rules")).bind fun rj =>
      match hj, rj with
      | .jarr hl, .jarr rl =>
          (decodeList decodeHost hl).bind fun hosts =>
          (decodeList decodeRule rl).bind fun rules =>
          some ⟨hosts, rules⟩
      | _, _ => none
  | _ => none

/-- The module-level function identifiers of `src/utils` that the
generated script's lines can bind or reference.  `Function.prototype.
toString` serializes a function's source without its closure environment,
so a name a pushed source refers to is resolved against the script's own
top-level bindings at execution time. -/
inductive JsName
  | hostMatch
  | resolveHostsByRule
  | findProxyForURL
  | FindProxyForURL
deriving Repr, DecidableEq

/-- Semantic model of the script text produced by `generatePac` in
`src/utils`: the embedded JSON configuration together with the list of
top-level function names the script text binds (one per pushed function
source or wrapper definition).  The behavior of each bound function is
that of the Lean function of the same name, but a call to a name not in
`defs` raises `ReferenceError` instead of running anything. -/
structure PacScript where
  config : Json
  defs : List JsName

/-- The function `generatePac` from `src/utils`, at the semantic level of
`PacScript`: its pushes are the serialized configuration
(`const hostConfig=${JSON.stringify(hostConfig)}`), the source of
`hostMatch`, the source of `findProxyForURL`, and a `FindProxyForURL`
wrapper — and nothing else; in particular the module-private
`resolveHostsByRule`, which `findProxyForURL`'s source calls, is never
pushed and so is never bound in the script. -/
def generatePacModel (cfg : HostConfig) : PacScript :=
  ⟨encodeHostConfig cfg, [.hostMatch, .findProxyForURL, .FindProxyForURL]⟩

/-- Execution errors of the script model: an unbound function identifier
(JavaScript `ReferenceError`), or an embedded configuration that does not
decode as a `HostConfig` (impossible for `generatePac`'s own output). -/
inductive JsRunError
  | referenceError (name : JsName)
  | badConfig
deriving Repr, DecidableEq

/-- Modelled from the spec and JS name-resolution semantics: the engine
invokes the script's `FindProxyForURL(url, host)`, whose body
unconditionally calls `findProxyForURL(hostConfig, url, host)`, whose body
in turn unconditionally calls `resolveHostsByRule(hostConfig, host)`; each
callee must be bound in the script or the call raises `ReferenceError` at
that point.  `hostMatch` is only referenced from the callback that
`resolveHostsByRule` passes to `rules.find`, which runs iff the rule list
is non-empty.  When the whole chain is bound, the call computes exactly
`findProxyForURL` on the decoded embedded configuration. -/
def runPacScript (script : PacScript) (url host : JStr) : Except JsRunError JStr :=
  if JsName.FindProxyForURL ∈ script.defs then
    if JsName.findProxyForURL ∈ script.defs then
      if JsName.resolveHostsByRule ∈ script.defs then
        match decodeHostConfig script.config with
        | none => .error .badConfig
        | some cfg =>
            if cfg.rules ≠ [] ∧ JsName.hostMatch ∉ script.defs then
              .error (.referenceError .hostMatch)
            else
              .ok (findProxyForURL cfg url host)
      else .error (.referenceError .resolveHostsByRule)
    else .error (.referenceError .findProxyForURL)
  else .error (.referenceError .FindProxyForURL)

/-- The binding list a repaired `generatePac` would produce if it also
pushed `resolveHostsByRule.toString()`, used to state what the emitted
script would have to contain for the spec's idempotence property to hold. -/
def withResolverDefs : List JsName :=
  [.hostMatch, .resolveHostsByRule, .findProxyForURL, .FindProxyForURL]

/-- The three shapes a stored `host_ids` column value can take on entry to
`parseHostIds` in `src/api`: falsy (`NULL` or the empty string), a string
`JSON.parse` throws on, or a string parsing to a JSON value. -/
inductive StoredHostIds
  | nullOrEmpty
  | unparsable
  | parsed (v : Json)

/-- Decimal digit-string value, used to model `Number` on simple numeric
strings (non-numeric strings give `none`, i.e. `NaN`). -/
def digitsVal? (s : JStr) : Option Nat :=
  if s ≠ [] ∧ s.all (fun c => c.isDigit) then
    some (s.foldl (fun acc c => acc * 10 + (c.toNat - Char.toNat '0')) 0)
  else
    none

/-- JavaScript `Number(string)`, restricted to the empty string (0) and
optionally-negated decimal integer strings; other strings give `NaN`
(`none`).  This under-approximates the JS grammar (no whitespace, decimals
or exponents), which only loses some `NaN`-vs-number distinctions that the
positivity/integrality filter below erases anyway. -/
def jsStrToNumber (s : JStr) : Option ℚ :=
  if s = [] then some 0
  else
    match s with
    | '-' :: rest => (digitsVal? rest).map (fun n => -(n : ℚ))
    | _ => (digitsVal? s).map (fun n => (n : ℚ))

/-- JavaScript `Number(x)` on parsed JSON values: `null` is 0, booleans are
0/1, numbers are themselves, strings go through the string grammar, `[]` is
0, a one-element array converts its element, and longer arrays and objects
are `NaN` (`none`). -/
def jsToNumber : Json → Option ℚ
  | .jnull => some 0
  | .jbool b => some (if b then 1 else 0)
  | .jnum q => some q
  | .jstr s => jsStrToNumber s
  | .jarr [] => some 0
  | .jarr [v] => jsToNumber v
  | .jarr (_ :: _ :: _) => none
  | .jobj _ => none

/-- `Array.from(new Set(xs))`: deduplication keeping the first occurrence
of each value, in encounter order. -/
def jsSetDedup : List ℚ → List ℚ
  | [] => []
  | a :: t => a :: (jsSetDedup t).filter (fun b => b != a)

/-- The function `parseHostIds` from `src/api`: a falsy stored value gives
`[]`; a `JSON.parse` failure is caught and gives `[]`; a parsed non-array
gives `[]`; a parsed array is mapped through `Number`, filtered to
integers strictly greater than 0 (`Number.isInteger(item) && item > 0`,
which also drops `NaN`), and deduplicated via `Set`. -/
def parseHostIds : StoredHostIds → List ℚ
  | .nullOrEmpty => []
  | .unparsable => []
  | .parsed (.jarr items) =>
      jsSetDedup
        (((items.map jsToNumber).filter (fun o =>
            o.elim false (fun q => q.den == 1 && decide (0 < q)))).filterMap id)
  | .parsed .jnull => []
  | .parsed (.jbool _) => []
  | .parsed (.jnum _) => []
  | .parsed (.jstr _) => []
  | .parsed (.jobj _) => []

/-- First sample host of the repository's own test fixture
(`src/utils/index.test.ts`). -/
def sampleHost1 : Host :=
  ⟨1, none, S "proxy.example.com", 8080, some (S "SOCKS")⟩

/-- Second sample host of the repository's own test fixture. -/
def sampleHost2 : Host :=
  ⟨2, none, S "proxy2.example.com", 8081, some (S "HTTP")⟩

/-- The `HostConfig` fixture of the repository's own tests. -/
def sampleConfig : HostConfig :=
  ⟨[sampleHost1, sampleHost2],
   [(S "*.google.com", [1]), (S "*.github.com", [1, 2]), (S "a.youtube.com", [2])]⟩

/-- A configuration whose only rule references the dangling host id 99. -/
def danglingConfig : HostConfig :=
  ⟨[sampleHost1, sampleHost2], [(S "*.github.com", [1, 99, 2])]⟩

/-- A sample host row for the legacy static PAC generator. -/
def samplePacHost1 : PacHost :=
  ⟨1, 1, S "proxy", .SOCKS, S "proxy.example.com", 8080⟩

/-- Helper: `find?` skips a block of non-matching elements and stops at the
first matching one. -/
theorem find?_first {α : Type} (p : α → Bool) (pre : List α) (r : α) (post : List α)
    (hpre : ∀ x ∈ pre, p x = false) (hr : p r = true) :
    (pre ++ r :: post).find? p = some r := by
  induction pre with
  | nil => simp [List.find?_cons_of_pos, hr]
  | cons a t ih =>
      have ha : p a = false := hpre a (by simp)
      rw [List.cons_append, List.find?_cons_of_neg _ (by simp [ha])]
      exact ih (fun x hx => hpre x (by simp [hx]))

/-- Helper: with no matching rule, resolution yields the empty host list. -/
theorem resolve_nil_of_no_match (cfg : HostConfig) (host : JStr)
    (hnone : ∀ r ∈ cfg.rules, hostMatch host r.1 = false) :
    resolveHostsByRule cfg host = [] := by
  unfold resolveHostsByRule
  rw [List.find?_eq_none.mpr (fun x hx => by simp [hnone x hx])]

/-- Helper: the last element of a separator join is a suffix of the join. -/
theorem jsJoin_last_suffix (sep : JStr) (l : List JStr) (d : JStr) :
    d <:+ jsJoin sep (l ++ [d]) := by
  induction l with
  | nil => simp [jsJoin]
  | cons a t ih =>
      have hne : t ++ [d] ≠ [] := by simp
      rw [List.cons_append, jsJoin, if_neg hne]
      exact (ih.trans (List.suffix_append sep _)).trans (List.suffix_append a _)

/-- Helper: ids that no host carries contribute nothing to `resolveIds`,
so filtering them out of the id list leaves the result unchanged. -/
theorem resolveIds_filter_dangling (hosts : List Host) (i : Int)
    (hfind : hosts.find? (fun item => item.id == i) = none) :
    ∀ ids : List Int,
      resolveIds hosts (ids.filter (fun j => j != i)) = resolveIds hosts ids := by
  intro ids
  induction ids with
  | nil => rfl
  | cons j t ih =>
      by_cases hj : j = i
      · subst hj
        simp only [resolveIds] at ih ⊢
        simp [List.filter_cons, hfind, List.filterMap_cons, ih]
      · have hne : (j != i) = true := by simp [hj]
        simp only [resolveIds] at ih ⊢
        rw [List.filter_cons, if_pos hne]
        simp only [List.map_cons, List.filterMap_cons]
        cases hf : hosts.find? (fun item => item.id == j) <;> simp [ih]

/-- C1: for every host string `h` and pattern string `p`, `hostMatch h p`
is true iff either `p` starts with the two-character string `*.` and `h`
ends with the substring of `p` after those two characters (a raw suffix
comparison, with no dot-boundary check — so `*.example.com` matches both
`www.example.com` and `example.com` itself), or `p` has no such wildcard
and `h` equals `p` exactly. -/
theorem hostMatch_wildcard_suffix_or_exact :
    (∀ h p : JStr,
      hostMatch h p = true ↔
        (((S "*.") <+: p ∧ (p.drop 2) <:+ h) ∨ (¬ (S "*.") <+: p ∧ h = p))) ∧
    hostMatch (S "www.example.com") (S "*.example.com") = true ∧
    hostMatch (S "example.com") (S "*.example.com") = true := by
  refine ⟨?_, by decide, by decide⟩
  intro h p
  unfold hostMatch
  by_cases hp : (S "*.").isPrefixOf p
  · simp [hp, List.isPrefixOf_iff_prefix.mp hp]
  · simp [hp]
    constructor
    · intro he
      exact Or.inr ⟨fun hc => hp ( List.isPrefixOf_iff_prefix.mpr hc), he⟩
    · rintro (⟨hc, _⟩ | ⟨_, he⟩)
      · exact absurd ( List.isPrefixOf_iff_prefix.mpr hc) hp
      · exact he

/-- C2: rule resolution scans `config.rules` in stored order and uses
exclusively the first rule whose pattern matches the queried host — the
result is determined by that rule's host ids alone, so a later matching
rule's host ids are never consulted; and when no rule matches, the
resolved host list is empty. -/
theorem resolve_first_matching_rule_wins :
    (∀ (cfg : HostConfig) (host : JStr) (pre : List Rule) (r : Rule) (post : List Rule),
        cfg.rules = pre ++ r :: post →
        (∀ r' ∈ pre, hostMatch host r'.1 = false) →
        hostMatch host r.1 = true →
        resolveHostsByRule cfg host = resolveIds cfg.hosts r.2) ∧
    (∀ (cfg : HostConfig) (host : JStr),
        (∀ r ∈ cfg.rules, hostMatch host r.1 = false) →
        resolveHostsByRule cfg host = []) := by
  constructor
  · intro cfg host pre r post hsplit hpre hr
    unfold resolveHostsByRule
    rw [hsplit, find?_first (fun item => hostMatch host item.1) pre r post hpre hr]
  · exact resolve_nil_of_no_match

/-- C2 witness: in the repository's test fixture, `a.github.com` is matched
by the second rule (the first does not match), and a host matched by no
rule resolves to the empty list. -/
theorem resolve_first_matching_rule_wins_witness :
    resolveHostsByRule sampleConfig (S "a.github.com") =
      resolveIds sampleConfig.hosts [1, 2] ∧
    resolveHostsByRule sampleConfig (S "nomatch.org") = [] :=
  ⟨resolve_first_matching_rule_wins.1 sampleConfig (S "a.github.com")
      [(S "*.google.com", [1])] (S "*.github.com", [1, 2]) [(S "a.youtube.com", [2])]
      rfl (by decide) (by decide),
   resolve_first_matching_rule_wins.2 sampleConfig (S "nomatch.org") (by decide)⟩

/-- C3: `findProxyForURL` returns the semicolon-join of one
`"{type} {host}:{port}"` directive per resolved host of the first matching
rule (in the rule's stored hostIds order, with an absent — or falsy —
`type` replaced by `PROXY`), always followed by a final `DIRECT` (which is
therefore always a suffix of the result); in particular, with no matching
rule the result is exactly `"DIRECT"`. -/
theorem findProxyForURL_directives_and_fallback (cfg : HostConfig) (url host : JStr) :
    (findProxyForURL cfg url host =
      jsJoin (S ";")
        ((resolveHostsByRule cfg host).map (fun it =>
            (match it.type with
              | none => S "PROXY"
              | some t => if t = [] then S "PROXY" else t) ++
            S " " ++ it.host ++ S ":" ++ S (toString it.port)) ++ [S "DIRECT"])) ∧
    (S "DIRECT") <:+ findProxyForURL cfg url host ∧
    ((∀ r ∈ cfg.rules, hostMatch host r.1 = false) →
      findProxyForURL cfg url host = S "DIRECT") := by
  refine ⟨rfl, ?_, ?_⟩
  · exact jsJoin_last_suffix _ _ _
  · intro hnone
    unfold findProxyForURL
    rw [resolve_nil_of_no_match cfg host hnone]
    rfl

/-- C3 witness: on the test fixture, the fallback `DIRECT` is a suffix of
every result, and an unmatched host yields exactly `DIRECT`. -/
theorem findProxyForURL_directives_and_fallback_witness :
    (S "DIRECT") <:+ findProxyForURL sampleConfig (S "http://x/") (S "nomatch.org") ∧
    findProxyForURL sampleConfig (S "http://x/") (S "nomatch.org") = S "DIRECT" :=
  ⟨(findProxyForURL_directives_and_fallback sampleConfig (S "http://x/")
      (S "nomatch.org")).2.1,
   (findProxyForURL_directives_and_fallback sampleConfig (S "http://x/")
      (S "nomatch.org")).2.2 (by decide)⟩

/-- C4: a host id with no corresponding `Host` in `config.hosts` is
silently skipped during resolution (the model is a total function, so no
error or partial-failure signal exists): deleting such an id from every
rule's hostIds changes neither the resolved host list nor the directive
string, i.e. the result simply omits the dangling entry while the other
ids resolve normally. -/
theorem dangling_host_ids_silently_skipped (cfg : HostConfig) (url host : JStr) (i : Int)
    (hdangling : ∀ hh ∈ cfg.hosts, ¬ hh.id = i) :
    resolveHostsByRule (removeId i cfg) host = resolveHostsByRule cfg host ∧
    findProxyForURL (removeId i cfg) url host = findProxyForURL cfg url host := by
  have hfind : cfg.hosts.find? (fun item => item.id == i) = none :=
    List.find?_eq_none.mpr (fun x hx => by simp [hdangling x hx])
  have hres : resolveHostsByRule (removeId i cfg) host = resolveHostsByRule cfg host := by
    unfold resolveHostsByRule removeId
    rw [List.find?_map]
    simp only [Function.comp_def]
    cases hr : cfg.rules.find? (fun item => hostMatch host item.1) with
    | none => rfl
    | some r =>
        simp only [Option.map_some']
        exact resolveIds_filter_dangling cfg.hosts i hfind r.2
  exact ⟨hres, by unfold findProxyForURL; rw [hres]⟩

/-- C4 witness: host id 99 is dangling in `danglingConfig`; removing it
from the rule changes nothing about resolution. -/
theorem dangling_host_ids_silently_skipped_witness :
    resolveHostsByRule (removeId 99 danglingConfig) (S "a.github.com") =
      resolveHostsByRule danglingConfig (S "a.github.com") ∧
    findProxyForURL (removeId 99 danglingConfig) (S "http://x/") (S "a.github.com") =
      findProxyForURL danglingConfig (S "http://x/") (S "a.github.com") :=
  dangling_host_ids_silently_skipped danglingConfig (S "http://x/") (S "a.github.com") 99
    (by decide)

/-- Helper: decoding an encoded host recovers the host, in each of the four
absent/present combinations of its optional fields. -/
theorem decodeHost_encodeHost (h : Host) : decodeHost (encodeHost h) = some h := by
  obtain ⟨id, name, hostv, port, type⟩ := h
  cases name <;> cases type <;>
    simp [encodeHost, decodeHost, jLookup, asInt, asStr, S,
      Rat.den_intCast, Rat.num_intCast]

/-- Helper: decoding an encoded id list recovers the list. -/
theorem decodeList_asInt_intCast (l : List Int) :
    decodeList asInt (l.map (fun (n : Int) => Json.jnum (n : ℚ))) = some l := by
  induction l with
  | nil => rfl
  | cons a t ih => simp [decodeList, asInt, Rat.den_intCast, Rat.num_intCast, ih]

/-- Helper: decoding an encoded rule recovers the rule. -/
theorem decodeRule_encodeRule (r : Rule) : decodeRule (encodeRule r) = some r := by
  obtain ⟨p, ids⟩ := r
  simp [encodeRule, decodeRule, asStr, decodeList_asInt_intCast]

/-- Helper: decoding an encoded host list recovers the list. -/
theorem decodeList_encodeHost (l : List Host) :
    decodeList decodeHost (l.map encodeHost) = some l := by
  induction l with
  | nil => rfl
  | cons a t ih => simp [decodeList, decodeHost_encodeHost, ih]

/-- Helper: decoding an encoded rule list recovers the list. -/
theorem decodeList_encodeRule (l : List Rule) :
    decodeList decodeRule (l.map encodeRule) = some l := by
  induction l with
  | nil => rfl
  | cons a t ih => simp [decodeList, decodeRule_encodeRule, ih]

/-- C5 (code bug): the script emitted by `generatePac` binds `hostMatch`,
`findProxyForURL` and the `FindProxyForURL` wrapper but never embeds the
module-private `resolveHostsByRule` that `findProxyForURL`'s embedded
source unconditionally calls, so executing the script raises
`ReferenceError: resolveHostsByRule` on every query — including the
repository's own test fixture — instead of reproducing `findProxyForURL`;
had the resolver's source also been pushed, execution would yield exactly
the direct resolution result (the JSON serialization round-trips
losslessly), which is what the claim asserts. -/
theorem generatePac_script_throws_referenceError :
    (∀ (cfg : HostConfig) (url host : JStr),
        runPacScript (generatePacModel cfg) url host =
          .error (.referenceError .resolveHostsByRule)) ∧
    runPacScript (generatePacModel sampleConfig) (S "http://x/") (S "a.github.com") =
      .error (.referenceError .resolveHostsByRule) ∧
    (∀ (cfg : HostConfig) (url host : JStr),
        runPacScript ⟨encodeHostConfig cfg, withResolverDefs⟩ url host =
          .ok (findProxyForURL cfg url host)) := by
  have h1 : ∀ (cfg : HostConfig) (url host : JStr),
      runPacScript (generatePacModel cfg) url host =
        .error (.referenceError .resolveHostsByRule) := by
    intro cfg url host
    simp [runPacScript, generatePacModel]
  refine ⟨h1, h1 sampleConfig (S "http://x/") (S "a.github.com"), ?_⟩
  intro cfg url host
  simp [runPacScript, withResolverDefs, encodeHostConfig, decodeHostConfig, jLookup, S,
    decodeList_encodeHost, decodeList_encodeRule]

/-- C6 counterexample: the static `/pac` pattern translation does not
escape dots before expanding `*`; at the concrete pattern `*.google.com`
the code produces `\.*\.google\.com` (the dot introduced by the wildcard
expansion gets escaped as well), while the claimed dots-first order would
produce `.*\.google\.com`, and the two differ. -/
theorem pac_regex_translation_order_counterexample :
    pacPatternRegex (S "*.google.com") = S "\\.*\\.google\\.com" ∧
    specClaimedPatternRegex (S "*.google.com") = S ".*\\.google\\.com" ∧
    pacPatternRegex (S "*.google.com") ≠ specClaimedPatternRegex (S "*.google.com") := by
  refine ⟨by decide, by decide, by decide⟩

/-- C6 (amended): in the pre-expanded static PAC generation, each rule's
wildcard pattern is converted by first expanding `*` into the any-sequence
token `.*` and only then escaping every dot — including the dot the
expansion just introduced — into a literal-dot token, so a leading `*.`
becomes `\.*\.`. -/
theorem pac_regex_translation_order_amended :
    (∀ p : JStr, pacPatternRegex p = dotEscapeAll (starExpandAll p)) ∧
    pacPatternRegex (S "*.google.com") = S "\\.*\\.google\\.com" := by
  constructor
  · intro p
    have hstar : ∀ q : JStr, jsReplaceAllChar '*' (S ".*") q = starExpandAll q := by
      intro q
      induction q with
      | nil => rfl
      | cons a t ih => simp [jsReplaceAllChar, starExpandAll, ih]
    have hdot : ∀ q : JStr, jsReplaceAllChar '.' (S "\\.") q = dotEscapeAll q := by
      intro q
      induction q with
      | nil => rfl
      | cons a t ih => simp [jsReplaceAllChar, dotEscapeAll, ih]
    rw [pacPatternRegex, hstar, hdot]
  · decide

/-- C7: for every host in the configuration handed to the static `/pac`
generator, the generated script's lookup table contains a proxy-string
entry keyed by that host's id. -/
theorem pac_static_table_entry_for_every_host
    (hosts : List PacHost) (rules : List PacRuleRow) (h : PacHost)
    (hmem : h ∈ hosts) :
    ∃ s : JStr,
      (S "        " ++ S (toString h.id) ++ S ": \"" ++ s ++ S "\",\n") <:+:
        pacStaticScript hosts rules := by
  have hline : ∃ s : JStr,
      pacHostLine h = S "        " ++ S (toString h.id) ++ S ": \"" ++ s ++ S "\",\n" := by
    cases ht : h.type
    · exact ⟨S "SOCKS5 " ++ h.host ++ S ":" ++ S (toString h.port), by
        simp [pacHostLine, ht, S]⟩
    · exact ⟨S "PROXY " ++ h.host ++ S ":" ++ S (toString h.port), by
        simp [pacHostLine, ht, S]⟩
    · exact ⟨S "HTTPS " ++ h.host ++ S ":" ++ S (toString h.port), by
        simp [pacHostLine, ht, S]⟩
  obtain ⟨s, hs⟩ := hline
  refine ⟨s, ?_⟩
  have h1 : pacHostLine h <:+: (hosts.map pacHostLine).flatten :=
    List.infix_of_mem_flatten (List.mem_map_of_mem pacHostLine hmem)
  have h2 : (hosts.map pacHostLine).flatten <:+: pacStaticScript hosts rules :=
    ⟨pacHeader, pacMiddle ++ (rules.map pacRuleLine).flatten ++ pacFooter, by
      simp [pacStaticScript]⟩
  exact hs ▸ (h1.trans h2)

/-- C7 witness: the script generated for a one-host configuration contains
a table entry keyed by that host's id. -/
theorem pac_static_table_entry_for_every_host_witness :
    ∃ s : JStr,
      (S "        " ++ S (toString samplePacHost1.id) ++ S ": \"" ++ s ++ S "\",\n") <:+:
        pacStaticScript [samplePacHost1] [] :=
  pac_static_table_entry_for_every_host [samplePacHost1] [] samplePacHost1 (by decide)

/-- C8: in the static `/pac` script, a rule with non-empty hostIds emits a
conditional built from the first host id only — the emitted line is
independent of the ids after the first, which are never consulted; a rule
with empty hostIds emits nothing; and the script always ends with the
trailing `return DEFAULT;` statement, `DEFAULT` being bound to the literal
string `"DIRECT"` in the script's header. -/
theorem pac_static_first_host_id_only :
    (∀ (p : JStr) (i : Int) (rest rest' : List Int),
        pacRuleLine ⟨p, i :: rest⟩ = pacRuleLine ⟨p, i :: rest'⟩) ∧
    (∀ (p : JStr) (i : Int) (rest : List Int),
        pacRuleLine ⟨p, i :: rest⟩ =
          S "    if (/" ++ pacPatternRegex p ++ S "/.test(host)) return PROXY[" ++
            S (toString i) ++ S "];\n") ∧
    (∀ p : JStr, pacRuleLine ⟨p, []⟩ = []) ∧
    (∀ (hosts : List PacHost) (rules : List PacRuleRow),
        pacFooter <:+ pacStaticScript hosts rules) ∧
    (∀ (hosts : List PacHost) (rules : List PacRuleRow),
        (S "    var DEFAULT = \"DIRECT\";\n") <:+: pacStaticScript hosts rules) := by
  refine ⟨?_, ?_, ?_, ?_, ?_⟩
  · intro p i rest rest'
    simp [pacRuleLine]
  · intro p i rest
    simp [pacRuleLine]
  · intro p
    simp [pacRuleLine]
  · intro hosts rules
    exact ⟨pacHeader ++ (hosts.map pacHostLine).flatten ++ pacMiddle ++
      (rules.map pacRuleLine).flatten, by simp [pacStaticScript]⟩
  · intro hosts rules
    have hin : (S "    var DEFAULT = \"DIRECT\";\n") <:+: pacHeader := by decide
    have hh : pacHeader <:+: pacStaticScript hosts rules :=
      ⟨[], (hosts.map pacHostLine).flatten ++ pacMiddle ++
        (rules.map pacRuleLine).flatten ++ pacFooter, by simp [pacStaticScript]⟩
    exact hin.trans hh

/-- Helper: anything in the output of the `Set`-style dedup was already in
its input. -/
theorem mem_jsSetDedup {q : ℚ} : ∀ {l : List ℚ}, q ∈ jsSetDedup l → q ∈ l := by
  intro l
  induction l with
  | nil => simp [jsSetDedup]
  | cons a t ih =>
      intro hq
      simp only [jsSetDedup] at hq
      rcases List.mem_cons.mp hq with h | h
      · exact h ▸ List.mem_cons_self a t
      · exact List.mem_cons_of_mem a (ih (List.mem_of_mem_filter h))

/-- Helper: the `Set`-style dedup has no duplicates. -/
theorem nodup_jsSetDedup : ∀ l : List ℚ, (jsSetDedup l).Nodup := by
  intro l
  induction l with
  | nil => simp [jsSetDedup]
  | cons a t ih =>
      simp only [jsSetDedup]
      refine List.nodup_cons.mpr ⟨?_, List.Nodup.filter _ ih⟩
      intro hmem
      have := List.of_mem_filter hmem
      simp at this

/-- C9: decoding a rule's stored `hostIds` never fails: every element of
the result is a strictly positive integer, the result has no duplicates,
and for a falsy stored value, a `JSON.parse` failure, or a parsed value
that is not an array, the result is the empty list. -/
theorem parseHostIds_always_clean :
    (∀ input : StoredHostIds, ∀ q ∈ parseHostIds input, q.den = 1 ∧ 0 < q) ∧
    (∀ input : StoredHostIds, (parseHostIds input).Nodup) ∧
    parseHostIds .nullOrEmpty = [] ∧
    parseHostIds .unparsable = [] ∧
    (∀ v : Json, (∀ l, v ≠ .jarr l) → parseHostIds (.parsed v) = []) := by
  refine ⟨?_, ?_, rfl, rfl, ?_⟩
  · intro input q hq
    match input with
    | .nullOrEmpty => simp [parseHostIds] at hq
    | .unparsable => simp [parseHostIds] at hq
    | .parsed .jnull => simp [parseHostIds] at hq
    | .parsed (.jbool _) => simp [parseHostIds] at hq
    | .parsed (.jnum _) => simp [parseHostIds] at hq
    | .parsed (.jstr _) => simp [parseHostIds] at hq
    | .parsed (.jobj _) => simp [parseHostIds] at hq
    | .parsed (.jarr items) =>
        have hmem := mem_jsSetDedup hq
        obtain ⟨o, ho, hoq⟩ := List.mem_filterMap.mp hmem
        have hfil := List.of_mem_filter ho
        cases o with
        | none => simp at hoq
        | some q' =>
            have hq' : q' = q := by simpa using hoq
            subst hq'
            simp only [Option.elim, Bool.and_eq_true, beq_iff_eq,
              decide_eq_true_eq] at hfil
            exact hfil
  · intro input
    match input with
    | .nullOrEmpty => exact List.nodup_nil
    | .unparsable => exact List.nodup_nil
    | .parsed .jnull => exact List.nodup_nil
    | .parsed (.jbool _) => exact List.nodup_nil
    | .parsed (.jnum _) => exact List.nodup_nil
    | .parsed (.jstr _) => exact List.nodup_nil
    | .parsed (.jobj _) => exact List.nodup_nil
    | .parsed (.jarr items) => exact nodup_jsSetDedup _
  · intro v hv
    match v with
    | .jnull => rfl
    | .jbool _ => rfl
    | .jnum _ => rfl
    | .jstr _ => rfl
    | .jobj _ => rfl
    | .jarr l => exact absurd rfl (hv l)

/-- C9 witness: the value 2 survives decoding of the stored array
`[2, 2, -1]` and is indeed a positive integer, and a parsed non-array
decodes to the empty list. -/
theorem parseHostIds_always_clean_witness :
    ((2 : ℚ).den = 1 ∧ 0 < (2 : ℚ)) ∧
    parseHostIds (.parsed (.jbool true)) = [] :=
  ⟨parseHostIds_always_clean.1 (.parsed (.jarr [.jnum 2, .jnum 2, .jnum (-1)])) 2
      (by decide),
   parseHostIds_always_clean.2.2.2.2 (.jbool true) (fun _ h => Json.noConfusion h)⟩

/-- C10: the static `/pac` generator rewrites directive keywords — a host
of stored type `SOCKS` is emitted as `SOCKS5 {host}:{port}` and a host of
stored type `HTTP` as `PROXY {host}:{port}`, with only `HTTPS` kept
verbatim — whereas the embedded-logic resolver's directives use the stored
(non-empty) type string verbatim. -/
theorem pac_static_rewrites_directive_keywords :
    (∀ h : PacHost, h.type = .SOCKS →
        pacHostLine h = S "        " ++ S (toString h.id) ++ S ": \"SOCKS5 " ++ h.host ++
          S ":" ++ S (toString h.port) ++ S "\",\n") ∧
    (∀ h : PacHost, h.type = .HTTP →
        pacHostLine h = S "        " ++ S (toString h.id) ++ S ": \"PROXY " ++ h.host ++
          S ":" ++ S (toString h.port) ++ S "\",\n") ∧
    (∀ h : PacHost, h.type = .HTTPS →
        pacHostLine h = S "        " ++ S (toString h.id) ++ S ": \"HTTPS " ++ h.host ++
          S ":" ++ S (toString h.port) ++ S "\",\n") ∧
    S "SOCKS5" ≠ S "SOCKS" ∧ S "PROXY" ≠ S "HTTP" ∧
    (∀ (item : Host) (t : JStr), item.type = some t → t ≠ [] →
        proxyDirective item = t ++ S " " ++ item.host ++ S ":" ++ S (toString item.port)) := by
  refine ⟨?_, ?_, ?_, by decide, by decide, ?_⟩
  · intro h ht
    simp [pacHostLine, ht]
  · intro h ht
    simp [pacHostLine, ht]
  · intro h ht
    simp [pacHostLine, ht]
  · intro item t ht hne
    simp [proxyDirective, typeOrPROXY, ht, hne]

/-- C10 witness: the sample SOCKS host is emitted with the `SOCKS5` keyword
by the static generator, while the embedded resolver keeps the stored
string `SOCKS` verbatim for the corresponding `Host` record. -/
theorem pac_static_rewrites_directive_keywords_witness :
    pacHostLine samplePacHost1 =
      S "        " ++ S (toString samplePacHost1.id) ++ S ": \"SOCKS5 " ++
        samplePacHost1.host ++ S ":" ++ S (toString samplePacHost1.port) ++ S "\",\n" ∧
    proxyDirective sampleHost1 =
      S "SOCKS" ++ S " " ++ sampleHost1.host ++ S ":" ++ S (toString sampleHost1.port) :=
  ⟨pac_static_rewrites_directive_keywords.1 samplePacHost1 rfl,
   pac_static_rewrites_directive_keywords.2.2.2.2.2 sampleHost1 (S "SOCKS") rfl
     (by decide)⟩

end SmartPac
